import Mathlib

/-!
Shallow embedding of the forecasting core of
`src/Lambda/RQ3/lambda_function.py` (Feature Builder, Trend Model,
Forecast Driver, Persistence Sink).

Modelling conventions:
* Python floats are embedded as rationals (`ℚ`); the arithmetic of the
  source is exact field arithmetic on these values.
* Calendar dates and timestamps are embedded as natural-number day
  indices; `timedelta(days=i)` is `+ i`.
* The process-wide random source (`random.seed(42)` at module load,
  `random.randrange(n)` inside training) is embedded as a deterministic
  stream `Nat → Nat` fixed by the seed, consumed one value per draw,
  with `randrange n` taking the stream value modulo `n`.
* The relational store of predictions is embedded as a list of rows in
  insertion order; the set of existing `prediction_date`s read by the
  sink is the list of dates of those rows.
-/

/-- A raw row of the `fires` query: `(acq_date, bright_ti4)`. -/
structure FireRow where
  acq_date : Nat
  bright_ti4 : ℚ
  deriving DecidableEq

/-- A raw row of the `air_quality` query: `(aqi_date, aqi)`. -/
structure AqiRow where
  aqi_date : Nat
  aqi : ℚ
  deriving DecidableEq

/-- A row of the merged daily series `df`: `(date, aqi, fire_intensity)`. -/
structure MergedRow where
  date : Nat
  aqi : ℚ
  fire_intensity : ℚ
  deriving DecidableEq

/-- A row of the `dv.air_quality_predictions` table (ignoring the serial
id and `created_at` column, which no claim mentions). -/
structure PredRow where
  prediction_date : Nat
  fire_event_timestamp : Nat
  predicted_aqi : ℚ
  deriving DecidableEq

/-- Mean of a list of rationals, `sum / len` (pandas `.mean()` on a
non-empty group; it is only ever applied to non-empty groups). -/
def meanQ (l : List ℚ) : ℚ := l.sum / l.length

/-- The values of `rows` recorded on day `d` (the group of `d` in a
pandas `groupby('date')`). -/
def valuesOn (rows : List (Nat × ℚ)) (d : Nat) : List ℚ :=
  (rows.filter fun p => p.1 == d).map Prod.snd

/-- The distinct dates occurring in `rows`, in ascending order (pandas
`groupby` sorts its keys ascending). -/
def distinctDates (rows : List (Nat × ℚ)) : List Nat :=
  List.insertionSort (· ≤ ·) (rows.map Prod.fst).dedup

/-- `groupby('date')[col].mean()`: one row per distinct date, ascending,
carrying the mean of that day's values. -/
def groupMeanDaily (rows : List (Nat × ℚ)) : List (Nat × ℚ) :=
  (distinctDates rows).map fun d => (d, meanQ (valuesOn rows d))

/-- `fire_daily`: daily mean of `bright_ti4`, one row per fire date. -/
def fire_daily (fireRows : List FireRow) : List (Nat × ℚ) :=
  groupMeanDaily (fireRows.map fun r => (r.acq_date, r.bright_ti4))

/-- `aqi_daily`: daily mean of `aqi`, one row per AQI date. -/
def aqi_daily (aqiRows : List AqiRow) : List (Nat × ℚ) :=
  groupMeanDaily (aqiRows.map fun r => (r.aqi_date, r.aqi))

/-- The merged daily series `df`: left join of `fire_daily` onto
`aqi_daily` by date, missing fire intensities filled with `0.0`,
sorted ascending by date (the left frame is already sorted and the
left join preserves its order, so the explicit sort is stable). -/
def mergedSeries (aqiRows : List AqiRow) (fireRows : List FireRow) : List MergedRow :=
  (aqi_daily aqiRows).map fun p =>
    { date := p.1, aqi := p.2,
      fire_intensity := ((fire_daily fireRows).lookup p.1).getD 0 }

/-- The Trend Model state: weights `[w0, w1, w2]` and learning rate. -/
structure SimpleLinearTimeModel where
  w0 : ℚ
  w1 : ℚ
  w2 : ℚ
  lr : ℚ
  deriving DecidableEq

/-- `predict_one`: `w0 + w1 * aqi_t + w2 * fire_t`. -/
def SimpleLinearTimeModel.predict_one (m : SimpleLinearTimeModel) (aqi_t fire_t : ℚ) : ℚ :=
  m.w0 + m.w1 * aqi_t + m.w2 * fire_t

/-- One SGD update on a single sample `(a, f, y)`: squared-error
gradients and a step of size `lr` on all three weights. -/
def sgd_step (m : SimpleLinearTimeModel) (a f y : ℚ) : SimpleLinearTimeModel :=
  let pred := m.predict_one a f
  let err := pred - y
  let grad_w0 := 2 * err
  let grad_w1 := 2 * err * a
  let grad_w2 := 2 * err * f
  { m with
    w0 := m.w0 - m.lr * grad_w0
    w1 := m.w1 - m.lr * grad_w1
    w2 := m.w2 - m.lr * grad_w2 }

/-- The epoch loop of `sgd_train`: each epoch draws one index
`rng k % n` (the embedding of `random.randrange(n)`), trains on that
sample, and advances the stream position. Returns the final model and
stream position. -/
def sgd_loop (rng : Nat → Nat) (xa xf yn : List ℚ) :
    Nat → SimpleLinearTimeModel → Nat → SimpleLinearTimeModel × Nat
  | 0, m, k => (m, k)
  | e + 1, m, k =>
      let n := yn.length
      let i := rng k % n
      let a := xa.getD i 0
      let f := xf.getD i 0
      let y := yn.getD i 0
      sgd_loop rng xa xf yn e (sgd_step m a f y) (k + 1)

/-- `sgd_train`: returns immediately when the target list is empty,
otherwise runs `epochs` single-sample SGD steps. -/
def sgd_train (rng : Nat → Nat) (k : Nat) (m : SimpleLinearTimeModel)
    (xa xf yn : List ℚ) (epochs : Nat) : SimpleLinearTimeModel × Nat :=
  if yn.length = 0 then (m, k) else sgd_loop rng xa xf yn epochs m k

/-- Feature list `x_aqi`: AQI of days `0 .. n-2` of the merged series. -/
def x_aqi (df : List MergedRow) : List ℚ := df.dropLast.map fun r => r.aqi

/-- Feature list `x_fire`: fire intensity of days `0 .. n-2`. -/
def x_fire (df : List MergedRow) : List ℚ := df.dropLast.map fun r => r.fire_intensity

/-- Target list `y_next`: AQI of days `1 .. n-1` (next-day targets). -/
def y_next (df : List MergedRow) : List ℚ := (df.drop 1).map fun r => r.aqi

/-- Scaling factor `mean_aqi = max(1.0, sum(x_aqi)/len(x_aqi))`. -/
def mean_aqi (l : List ℚ) : ℚ := max 1 (l.sum / l.length)

/-- Scaling factor `mean_fire = max(1.0, sum(x_fire)/len(x_fire))`. -/
def mean_fire (l : List ℚ) : ℚ := max 1 (l.sum / l.length)

/-- The train-and-unscale phase of the handler: scale the features and
targets, fit a fresh model (`lr = 0.001`, 4000 epochs) on scaled data
starting at stream position 0, and un-scale the learned weights back to
original units: `(mean_aqi * w0, w1, (mean_aqi / mean_fire) * w2)`. -/
def trainedWeights (rng : Nat → Nat) (df : List MergedRow) : ℚ × ℚ × ℚ :=
  let xa := x_aqi df
  let xf := x_fire df
  let yn := y_next df
  let mA := mean_aqi xa
  let mF := mean_fire xf
  let xas := xa.map fun a => a / mA
  let xfs := xf.map fun f => f / mF
  let ys := yn.map fun y => y / mA
  let m0 : SimpleLinearTimeModel := { w0 := 0, w1 := 1/2, w2 := 1/2, lr := 1/1000 }
  let m := (sgd_train rng 0 m0 xas xfs ys 4000).1
  (mA * m.w0, m.w1, (mA / mF) * m.w2)

/-- The autoregressive rollout loop: each day predicts
`w0 + w1 * current + w2 * future_fire`, clamps at `0.0`, stores the
clamped value and feeds it forward as the next day's AQI input. -/
def rolloutLoop (w0 w1 w2 future_fire : ℚ) : Nat → ℚ → List ℚ
  | 0, _ => []
  | n + 1, current =>
      let pred := w0 + w1 * current + w2 * future_fire
      let clamped := max 0 pred
      clamped :: rolloutLoop w0 w1 w2 future_fire n clamped

/-- The body of `_insert_timeseries`'s loop over `zip(dates, aqi_values)`
against the in-memory set `ex` of already-present dates: rows whose date
is in `ex` are skipped, others are appended to the store and their date
added to `ex`. -/
def insertLoop (fet : Nat) : List (Nat × ℚ) → List Nat → List PredRow → List PredRow
  | [], _, st => st
  | (d, a) :: rest, ex, st =>
      if d ∈ ex then insertLoop fet rest ex st
      else insertLoop fet rest (d :: ex) (st ++ [⟨d, fet, a⟩])

/-- `_insert_timeseries`: read the existing prediction dates, then
insert each `(date, aqi)` pair of the batch whose date is not yet
present, tracking freshly inserted dates in the same in-memory set. -/
def insert_timeseries (st : List PredRow) (dates : List Nat) (fet : Nat)
    (aqis : List ℚ) : List PredRow :=
  insertLoop fet (dates.zip aqis) (st.map fun r => r.prediction_date) st

/-- The rows `_insert_timeseries` appends (same recursion as
`insertLoop`, store projected away); used to reason about the sink. -/
def newRows (fet : Nat) : List (Nat × ℚ) → List Nat → List PredRow
  | [], _ => []
  | (d, a) :: rest, ex =>
      if d ∈ ex then newRows fet rest ex
      else ⟨d, fet, a⟩ :: newRows fet rest (d :: ex)

/-- `fire_event_time`: `max(fire_df['acq_date'])`, or "now" if there is
no fire data at all. -/
def fire_event_time (fireRows : List FireRow) (now : Nat) : Nat :=
  match (fireRows.map fun r => r.acq_date).max? with
  | some d => d
  | none => now

/-- `last_fire` of the fallback path: the fire intensity of the last
`fire_daily` row (`iloc[-1]`, the most recent fire date since the daily
frame is sorted ascending), or `0.0` when there is no fire data. -/
def fallback_last_fire (fireRows : List FireRow) : ℚ :=
  match (fire_daily fireRows).getLast? with
  | some p => p.2
  | none => 0

/-- `last_date` of the fallback path: the date of the last `fire_daily`
row, or "now" when there is no fire data. -/
def fallback_last_date (fireRows : List FireRow) (now : Nat) : Nat :=
  match (fire_daily fireRows).getLast? with
  | some p => p.1
  | none => now

/-- The message of the full-model return value
(`f"3-day AQI time series forecast stored. Dates: \x7bforecast_dates\x7d"`). -/
def fullMessage (ds : List Nat) : String :=
  "3-day AQI time series forecast stored. Dates: " ++ toString ds

/-- The observable outcome of one handler invocation: the returned
status and message, the forecast batch handed to the Persistence Sink,
the fire-event timestamp attached to it, and the resulting store. -/
structure HandlerOut where
  statusCode : Nat
  message : String
  forecast_dates : List Nat
  forecast_aqi : List ℚ
  fire_event_time : Nat
  store : List PredRow
  deriving DecidableEq

/-- `lambda_handler`, given the module random stream, the two windowed
query results, the current prediction store, and "now". `none` embeds
an uncaught Python exception: on the full-model path the code reads
`last_fire_date` (unbound when there is no fire data, a `NameError`)
and `df_before_fire.iloc[-1]` (an `IndexError` when no merged row is on
or before the last fire date). -/
def lambda_handler (rng : Nat → Nat) (fireRows : List FireRow) (aqiRows : List AqiRow)
    (store : List PredRow) (now : Nat) : Option HandlerOut :=
  let df := mergedSeries aqiRows fireRows
  if df.length < 5 then
    let last_fire := fallback_last_fire fireRows
    let last_date := fallback_last_date fireRows now
    let forecast_dates := [last_date + 1, last_date + 2, last_date + 3]
    let forecast_aqi := List.replicate 3 (last_fire * 5)
    let fet := fire_event_time fireRows now
    some { statusCode := 200
           message := "Fallback forecast stored (insufficient history)."
           forecast_dates := forecast_dates
           forecast_aqi := forecast_aqi
           fire_event_time := fet
           store := insert_timeseries store forecast_dates fet forecast_aqi }
  else
    match (fireRows.map fun r => r.acq_date).max? with
    | none => none
    | some lastFireDate =>
      match (df.filter fun r => r.date ≤ lastFireDate).getLast? with
      | none => none
      | some last_row =>
        let w := trainedWeights rng df
        let future_fire := last_row.fire_intensity
        let forecast_aqi := rolloutLoop w.1 w.2.1 w.2.2 future_fire 3 last_row.aqi
        let forecast_dates := [lastFireDate + 1, lastFireDate + 2, lastFireDate + 3]
        let fet := fire_event_time fireRows now
        some { statusCode := 200
               message := fullMessage forecast_dates
               forecast_dates := forecast_dates
               forecast_aqi := forecast_aqi
               fire_event_time := fet
               store := insert_timeseries store forecast_dates fet forecast_aqi }

/-- Which of the handler's store interactions raise, modelling the
fallible calls in invocation order: the two history reads, the
`CREATE TABLE`, the read of existing prediction dates, and the inserts
plus commit. -/
structure ExecFlags where
  fireReadFails : Bool
  aqiReadFails : Bool
  createFails : Bool
  readPredFails : Bool
  insertFails : Bool
  deriving DecidableEq

/-- The resource-level outcome of one invocation: whether it returned
normally (`ok`) or an exception escaped, how many times the store
connection was acquired, whether cursor and connection were closed
before the invocation terminated, and the returned value if any. -/
structure ExecResult where
  ok : Bool
  connAcquired : Nat
  connClosed : Bool
  cursorClosed : Bool
  result : Option HandlerOut
  deriving DecidableEq

/-- `lambda_handler` with its resource behaviour made explicit. The
source has no `try`/`finally` and no context manager: `cursor.close()`
and `conn.close()` are reached only by running off the end of either
success path, so any raise before them leaves both open. -/
def lambda_handler_exec (flags : ExecFlags) (rng : Nat → Nat)
    (fireRows : List FireRow) (aqiRows : List AqiRow)
    (store : List PredRow) (now : Nat) : ExecResult :=
  if flags.fireReadFails then ⟨false, 1, false, false, none⟩
  else if flags.aqiReadFails then ⟨false, 1, false, false, none⟩
  else
    let df := mergedSeries aqiRows fireRows
    if df.length < 5 then
      if flags.createFails || flags.readPredFails || flags.insertFails then
        ⟨false, 1, false, false, none⟩
      else ⟨true, 1, true, true, lambda_handler rng fireRows aqiRows store now⟩
    else
      match lambda_handler rng fireRows aqiRows store now with
      | none => ⟨false, 1, false, false, none⟩
      | some out =>
        if flags.createFails || flags.readPredFails || flags.insertFails then
          ⟨false, 1, false, false, none⟩
        else ⟨true, 1, true, true, some out⟩

/-- Embedding of the module-level random source: `random.seed(42)` at
module load fixes the process-wide generator, abstracted here as a
deterministic stream of naturals determined by the seed (a linear
congruential formula standing in for CPython's MT19937). -/
def seededStream (seed : Nat) : Nat → Nat :=
  fun k => (1103515245 * (seed + k) + 12345) % 2147483648

/-! ## Helper lemmas -/

/-- Membership in the distinct-date list is membership among the raw
dates. -/
theorem mem_distinctDates (rows : List (Nat × ℚ)) (d : Nat) :
    d ∈ distinctDates rows ↔ d ∈ rows.map Prod.fst := by
  unfold distinctDates
  rw [(List.perm_insertionSort _ _).mem_iff, List.mem_dedup]

/-- The distinct-date list is sorted ascending. -/
theorem distinctDates_sorted (rows : List (Nat × ℚ)) :
    List.Sorted (· ≤ ·) (distinctDates rows) :=
  List.sorted_insertionSort _ _

/-- The distinct-date list has no duplicates. -/
theorem distinctDates_nodup (rows : List (Nat × ℚ)) :
    (distinctDates rows).Nodup :=
  (List.perm_insertionSort _ _).nodup_iff.mpr (List.nodup_dedup _)

/-- Association-list lookup over a keyed map of a date list. -/
theorem lookup_map_pair (x : Nat) (g : Nat → ℚ) :
    ∀ l : List Nat,
      (l.map fun d => (d, g d)).lookup x = if x ∈ l then some (g x) else none
  | [] => by simp [List.lookup]
  | d :: t => by
      by_cases h : x = d
      · subst h
        simp [List.lookup]
      · have hb : (x == d) = false := by simp [h]
        simp [List.lookup, hb, h, lookup_map_pair x g t]

/-- Lookup in a grouped daily frame returns the day's mean exactly on
the days present in the raw rows. -/
theorem lookup_groupMeanDaily (rows : List (Nat × ℚ)) (x : Nat) :
    (groupMeanDaily rows).lookup x =
      if x ∈ rows.map Prod.fst then some (meanQ (valuesOn rows x)) else none := by
  unfold groupMeanDaily
  rw [lookup_map_pair]
  by_cases hx : x ∈ rows.map Prod.fst
  · rw [if_pos ((mem_distinctDates rows x).mpr hx), if_pos hx]
  · rw [if_neg (fun hc => hx ((mem_distinctDates rows x).mp hc)), if_neg hx]

/-- The dates of the merged series are exactly the distinct AQI dates in
ascending order. -/
theorem mergedSeries_map_date (aqiRows : List AqiRow) (fireRows : List FireRow) :
    (mergedSeries aqiRows fireRows).map (fun r => r.date) =
      distinctDates (aqiRows.map fun r => (r.aqi_date, r.aqi)) := by
  unfold mergedSeries aqi_daily groupMeanDaily
  rw [List.map_map, List.map_map]
  show List.map id _ = _
  rw [List.map_id]

/-- Characterization of the handler on the fallback path. -/
theorem lambda_handler_lt5 (rng : Nat → Nat) (fireRows : List FireRow)
    (aqiRows : List AqiRow) (store : List PredRow) (now : Nat)
    (h5 : (mergedSeries aqiRows fireRows).length < 5) :
    lambda_handler rng fireRows aqiRows store now = some
      { statusCode := 200
        message := "Fallback forecast stored (insufficient history)."
        forecast_dates := [fallback_last_date fireRows now + 1,
          fallback_last_date fireRows now + 2, fallback_last_date fireRows now + 3]
        forecast_aqi := List.replicate 3 (fallback_last_fire fireRows * 5)
        fire_event_time := fire_event_time fireRows now
        store := insert_timeseries store
          [fallback_last_date fireRows now + 1, fallback_last_date fireRows now + 2,
            fallback_last_date fireRows now + 3]
          (fire_event_time fireRows now)
          (List.replicate 3 (fallback_last_fire fireRows * 5)) } := by
  unfold lambda_handler
  rw [if_pos h5]

/-- Characterization of the handler on the full-model path. -/
theorem lambda_handler_full (rng : Nat → Nat) (fireRows : List FireRow)
    (aqiRows : List AqiRow) (store : List PredRow) (now : Nat)
    (lastFireDate : Nat) (last_row : MergedRow)
    (h5 : ¬ (mergedSeries aqiRows fireRows).length < 5)
    (hD : (fireRows.map fun r => r.acq_date).max? = some lastFireDate)
    (hrow : ((mergedSeries aqiRows fireRows).filter
        fun r => r.date ≤ lastFireDate).getLast? = some last_row) :
    lambda_handler rng fireRows aqiRows store now = some
      { statusCode := 200
        message := fullMessage [lastFireDate + 1, lastFireDate + 2, lastFireDate + 3]
        forecast_dates := [lastFireDate + 1, lastFireDate + 2, lastFireDate + 3]
        forecast_aqi := rolloutLoop (trainedWeights rng (mergedSeries aqiRows fireRows)).1
          (trainedWeights rng (mergedSeries aqiRows fireRows)).2.1
          (trainedWeights rng (mergedSeries aqiRows fireRows)).2.2
          last_row.fire_intensity 3 last_row.aqi
        fire_event_time := fire_event_time fireRows now
        store := insert_timeseries store
          [lastFireDate + 1, lastFireDate + 2, lastFireDate + 3]
          (fire_event_time fireRows now)
          (rolloutLoop (trainedWeights rng (mergedSeries aqiRows fireRows)).1
            (trainedWeights rng (mergedSeries aqiRows fireRows)).2.1
            (trainedWeights rng (mergedSeries aqiRows fireRows)).2.2
            last_row.fire_intensity 3 last_row.aqi) } := by
  unfold lambda_handler
  rw [if_neg h5, hD]
  simp only [hrow]

/-- Every value produced by the rollout loop is non-negative (each entry
is a `max 0 _`). -/
theorem rolloutLoop_nonneg (w0 w1 w2 ff : ℚ) :
    ∀ (n : Nat) (c : ℚ), ∀ x ∈ rolloutLoop w0 w1 w2 ff n c, 0 ≤ x
  | 0, c => by simp [rolloutLoop]
  | n + 1, c => by
      intro x hx
      rw [rolloutLoop] at hx
      rcases List.mem_cons.mp hx with h | h
      · rw [h]; exact le_max_left _ _
      · exact rolloutLoop_nonneg w0 w1 w2 ff n _ x h

/-- The insert loop only appends: the final store is the initial store
followed by the freshly inserted rows. -/
theorem insertLoop_eq_append (fet : Nat) :
    ∀ (b : List (Nat × ℚ)) (ex : List Nat) (st : List PredRow),
      insertLoop fet b ex st = st ++ newRows fet b ex
  | [], ex, st => by simp [insertLoop, newRows]
  | (d, a) :: rest, ex, st => by
      by_cases h : d ∈ ex
      · rw [insertLoop, newRows, if_pos h, if_pos h, insertLoop_eq_append fet rest ex st]
      · rw [insertLoop, newRows, if_neg h, if_neg h,
          insertLoop_eq_append fet rest (d :: ex), List.append_assoc,
          List.singleton_append]

/-- No freshly inserted row carries a date that was already in the
in-memory set when the loop started. -/
theorem newRows_date_not_mem (fet : Nat) :
    ∀ (b : List (Nat × ℚ)) (ex : List Nat),
      ∀ r ∈ newRows fet b ex, r.prediction_date ∉ ex
  | [], ex => by simp [newRows]
  | (d, a) :: rest, ex => by
      by_cases h : d ∈ ex
      · rw [newRows, if_pos h]
        exact newRows_date_not_mem fet rest ex
      · rw [newRows, if_neg h]
        intro r hr
        rcases List.mem_cons.mp hr with hhd | htl
        · rw [hhd]; exact h
        · intro hmem
          exact newRows_date_not_mem fet rest (d :: ex) r htl (List.mem_cons_of_mem d hmem)

/-- The dates of the freshly inserted rows have no duplicates: a date
duplicated inside one batch is inserted at most once. -/
theorem newRows_dates_nodup (fet : Nat) :
    ∀ (b : List (Nat × ℚ)) (ex : List Nat),
      ((newRows fet b ex).map fun r => r.prediction_date).Nodup
  | [], ex => by simp [newRows]
  | (d, a) :: rest, ex => by
      by_cases h : d ∈ ex
      · rw [newRows, if_pos h]
        exact newRows_dates_nodup fet rest ex
      · rw [newRows, if_neg h]
        refine List.nodup_cons.mpr ⟨?_, newRows_dates_nodup fet rest (d :: ex)⟩
        intro hd
        rcases List.mem_map.mp hd with ⟨r, hr, hrd⟩
        exact newRows_date_not_mem fet rest (d :: ex) r hr (hrd ▸ List.mem_cons_self d _)

/-- A date is freshly inserted iff it occurs in the batch and was not in
the initial in-memory set. -/
theorem mem_newRows_dates (fet : Nat) :
    ∀ (b : List (Nat × ℚ)) (ex : List Nat) (y : Nat),
      (y ∈ (newRows fet b ex).map fun r => r.prediction_date) ↔
        y ∈ b.map Prod.fst ∧ y ∉ ex
  | [], ex, y => by simp [newRows]
  | (d, a) :: rest, ex, y => by
      by_cases h : d ∈ ex
      · rw [newRows, if_pos h]
        rw [mem_newRows_dates fet rest ex y]
        simp only [List.map_cons, List.mem_cons]
        constructor
        · rintro ⟨hy, hny⟩
          exact ⟨Or.inr hy, hny⟩
        · rintro ⟨hy | hy, hny⟩
          · exact absurd (hy ▸ h) hny
          · exact ⟨hy, hny⟩
      · rw [newRows, if_neg h]
        simp only [List.map_cons, List.mem_cons]
        rw [mem_newRows_dates fet rest (d :: ex) y]
        constructor
        · rintro (rfl | ⟨hy, hny⟩)
          · exact ⟨Or.inl rfl, h⟩
          · exact ⟨Or.inr hy, fun hc => hny (List.mem_cons_of_mem d hc)⟩
        · rintro ⟨rfl | hy, hny⟩
          · exact Or.inl rfl
          · by_cases hyd : y = d
            · exact Or.inl hyd
            · exact Or.inr ⟨hy, fun hc => (List.mem_cons.mp hc).elim hyd hny⟩

/-- If every batch date is already in the in-memory set, nothing is
inserted. -/
theorem newRows_nil_of_all_mem (fet : Nat) :
    ∀ (b : List (Nat × ℚ)) (ex : List Nat),
      (∀ p ∈ b, p.1 ∈ ex) → newRows fet b ex = []
  | [], ex => by simp [newRows]
  | (d, a) :: rest, ex => by
      intro hall
      rw [newRows, if_pos (hall (d, a) (List.mem_cons_self _ _))]
      exact newRows_nil_of_all_mem fet rest ex
        (fun p hp => hall p (List.mem_cons_of_mem _ hp))

/-- The dates present after `_insert_timeseries` are the old dates plus
the batch dates. -/
theorem mem_insert_timeseries_dates (st : List PredRow) (dates : List Nat)
    (fet : Nat) (aqis : List ℚ) (y : Nat) :
    (y ∈ (insert_timeseries st dates fet aqis).map fun r => r.prediction_date) ↔
      (y ∈ st.map fun r => r.prediction_date) ∨ y ∈ (dates.zip aqis).map Prod.fst := by
  unfold insert_timeseries
  rw [insertLoop_eq_append, List.map_append, List.mem_append,
    mem_newRows_dates]
  constructor
  · rintro (hy | ⟨hy, _⟩)
    · exact Or.inl hy
    · exact Or.inr hy
  · rintro (hy | hy)
    · exact Or.inl hy
    · by_cases hst : y ∈ st.map fun r => r.prediction_date
      · exact Or.inl hst
      · exact Or.inr ⟨hy, hst⟩

/-- The last element reported by `getLast?` is an element of the list. -/
theorem mem_of_getLast?_eq {α : Type} {l : List α} {a : α}
    (h : l.getLast? = some a) : a ∈ l := by
  have ha : a ∈ l.getLast? := by rw [h]; rfl
  rcases List.mem_getLast?_eq_getLast ha with ⟨hne, heq⟩
  rw [heq]
  exact List.getLast_mem hne

/-- Every value of a day group is one of the raw values. -/
theorem mem_valuesOn (rows : List (Nat × ℚ)) (d : Nat) (v : ℚ)
    (hv : v ∈ valuesOn rows d) : ∃ p ∈ rows, p.2 = v := by
  rcases List.mem_map.mp hv with ⟨p, hp, hpv⟩
  exact ⟨p, List.mem_of_mem_filter hp, hpv⟩

/-- A day mean of non-negative values is non-negative. -/
theorem meanQ_nonneg (l : List ℚ) (h : ∀ v ∈ l, 0 ≤ v) : 0 ≤ meanQ l := by
  unfold meanQ
  exact div_nonneg (List.sum_nonneg h) (Nat.cast_nonneg _)

/-- When every brightness reading is non-negative, every daily mean fire
intensity is non-negative. -/
theorem fire_daily_nonneg (fireRows : List FireRow)
    (hpos : ∀ r ∈ fireRows, 0 ≤ r.bright_ti4) :
    ∀ p ∈ fire_daily fireRows, 0 ≤ p.2 := by
  intro p hp
  rcases List.mem_map.mp hp with ⟨d, _, hdp⟩
  rw [← hdp]
  refine meanQ_nonneg _ ?_
  intro v hv
  rcases mem_valuesOn _ _ _ hv with ⟨q, hq, hqv⟩
  rcases List.mem_map.mp hq with ⟨r, hr, hrq⟩
  rw [← hqv, ← hrq]
  exact hpos r hr

/-- The head of a list extends to the head of an append. -/
theorem head?_append_left {α : Type} (l₁ l₂ : List α) (c : α)
    (hc : l₁.head? = some c) : (l₁ ++ l₂).head? = some c := by
  cases l₁ with
  | nil => simp at hc
  | cons a t => simpa using hc

/-- The full-model message never coincides with the fallback message
(their first characters differ), so the fallback message distinguishes
the fallback path. -/
theorem fullMessage_ne_fallback (ds : List Nat) :
    fullMessage ds ≠ "Fallback forecast stored (insufficient history)." := by
  intro h
  have hd := congrArg String.data h
  rw [fullMessage, String.data_append] at hd
  have h3 : ("3-day AQI time series forecast stored. Dates: " : String).data.head? =
      some '3' := by decide
  have hF : ("Fallback forecast stored (insufficient history)." : String).data.head? =
      some 'F' := by decide
  have := head?_append_left _ (toString ds).data '3' h3
  rw [hd, hF] at this
  exact absurd (Option.some.inj this) (by decide)

/-! ## Claim theorems -/

/-- C1: on every invocation whose merged series has fewer than 5 rows
and whose daily fire series is non-empty with last fire date `D` and
last daily mean fire intensity `I`, the forecast handed to the sink is
exactly the three points `(D+1, I*5.0)`, `(D+2, I*5.0)`, `(D+3, I*5.0)`,
the Trend Model is not consulted (the outcome does not depend on the
random stream that training would consume), and the invocation reports
success (`statusCode 200`) with the distinguishing fallback message. -/
theorem claim_C1_fallback_forecast (rng rng2 : Nat → Nat) (fireRows : List FireRow)
    (aqiRows : List AqiRow) (store : List PredRow) (now : Nat) (D : Nat) (I : ℚ)
    (h5 : (mergedSeries aqiRows fireRows).length < 5)
    (hlast : (fire_daily fireRows).getLast? = some (D, I)) :
    ∃ out : HandlerOut,
      lambda_handler rng fireRows aqiRows store now = some out ∧
      out.forecast_dates = [D + 1, D + 2, D + 3] ∧
      out.forecast_aqi = [I * 5, I * 5, I * 5] ∧
      out.statusCode = 200 ∧
      out.message = "Fallback forecast stored (insufficient history)." ∧
      (∀ ds : List Nat, out.message ≠ fullMessage ds) ∧
      out.store = insert_timeseries store [D + 1, D + 2, D + 3]
        (fire_event_time fireRows now) [I * 5, I * 5, I * 5] ∧
      lambda_handler rng2 fireRows aqiRows store now
        = lambda_handler rng fireRows aqiRows store now := by
  have hfd : fallback_last_date fireRows now = D := by
    unfold fallback_last_date
    rw [hlast]
  have hff : fallback_last_fire fireRows = I := by
    unfold fallback_last_fire
    rw [hlast]
  refine ⟨_, lambda_handler_lt5 rng fireRows aqiRows store now h5,
    ?_, ?_, rfl, rfl, ?_, ?_, ?_⟩
  · rw [hfd]
  · show List.replicate 3 (fallback_last_fire fireRows * 5) = _
    rw [hff]
    rfl
  · intro ds
    exact (fullMessage_ne_fallback ds).symm
  · show insert_timeseries store
      [fallback_last_date fireRows now + 1, fallback_last_date fireRows now + 2,
        fallback_last_date fireRows now + 3] (fire_event_time fireRows now)
      (List.replicate 3 (fallback_last_fire fireRows * 5)) = _
    rw [hfd, hff]
    rfl
  · rw [lambda_handler_lt5 rng fireRows aqiRows store now h5,
      lambda_handler_lt5 rng2 fireRows aqiRows store now h5]

/-- Witness for C1: a concrete invocation with one fire reading on day
10 of brightness 3 and no AQI history. -/
theorem claim_C1_fallback_forecast_witness :
    (mergedSeries [] [FireRow.mk 10 3]).length < 5 ∧
    (fire_daily [FireRow.mk 10 3]).getLast? = some (10, 3) ∧
    ∃ out : HandlerOut,
      lambda_handler (fun _ => 0) [FireRow.mk 10 3] [] [] 0 = some out ∧
      out.forecast_dates = [10 + 1, 10 + 2, 10 + 3] ∧
      out.forecast_aqi = [3 * 5, 3 * 5, 3 * 5] ∧
      out.statusCode = 200 ∧
      out.message = "Fallback forecast stored (insufficient history)." ∧
      (∀ ds : List Nat, out.message ≠ fullMessage ds) ∧
      out.store = insert_timeseries [] [10 + 1, 10 + 2, 10 + 3]
        (fire_event_time [FireRow.mk 10 3] 0) [3 * 5, 3 * 5, 3 * 5] ∧
      lambda_handler (fun _ => 1) [FireRow.mk 10 3] [] [] 0
        = lambda_handler (fun _ => 0) [FireRow.mk 10 3] [] [] 0 := by
  refine ⟨by decide, ?_, ?_⟩
  · simp [fire_daily, groupMeanDaily, distinctDates, valuesOn, meanQ]
  · exact claim_C1_fallback_forecast (fun _ => 0) (fun _ => 1) [FireRow.mk 10 3] [] [] 0
      10 3 (by decide)
      (by simp [fire_daily, groupMeanDaily, distinctDates, valuesOn, meanQ])

/-- C2: for every AQI series, the merged series has exactly one row per
distinct date present in the AQI series (no duplicate dates, membership
coincides), is sorted ascending by date, each row's fire intensity is
the mean of that day's fire brightness readings when the date appears in
the fire series and `0.0` otherwise, and an empty AQI series yields an
empty merged series. -/
theorem claim_C2_merged_series_invariant (aqiRows : List AqiRow) (fireRows : List FireRow) :
    ((mergedSeries aqiRows fireRows).map fun r => r.date).Nodup ∧
    List.Sorted (· ≤ ·) ((mergedSeries aqiRows fireRows).map fun r => r.date) ∧
    (∀ d : Nat, (d ∈ (mergedSeries aqiRows fireRows).map fun r => r.date) ↔
        d ∈ aqiRows.map fun r => r.aqi_date) ∧
    (∀ r ∈ mergedSeries aqiRows fireRows,
        r.fire_intensity =
          if r.date ∈ fireRows.map (fun s => s.acq_date)
          then meanQ (valuesOn (fireRows.map fun s => (s.acq_date, s.bright_ti4)) r.date)
          else 0) ∧
    mergedSeries [] fireRows = [] := by
  have heq : (fireRows.map fun s => (s.acq_date, s.bright_ti4)).map Prod.fst
      = fireRows.map fun s => s.acq_date := by
    rw [List.map_map]
    rfl
  refine ⟨?_, ?_, ?_, ?_, rfl⟩
  · rw [mergedSeries_map_date]
    exact distinctDates_nodup _
  · rw [mergedSeries_map_date]
    exact distinctDates_sorted _
  · intro d
    rw [mergedSeries_map_date, mem_distinctDates]
    rw [List.map_map]
    exact Iff.rfl
  · intro r hr
    rcases List.mem_map.mp hr with ⟨p, hp, hpr⟩
    have hl := lookup_groupMeanDaily (fireRows.map fun s => (s.acq_date, s.bright_ti4)) p.1
    rw [heq] at hl
    rw [← hpr]
    show ((fire_daily fireRows).lookup p.1).getD 0 = _
    unfold fire_daily
    rw [hl]
    by_cases hc : p.1 ∈ fireRows.map fun s => s.acq_date
    · rw [if_pos hc, if_pos hc]
      rfl
    · rw [if_neg hc, if_neg hc]
      rfl

/-- C3: the scaling factors are floored at `1.0` (so both are at least
one and the divisions are well-defined), and un-scaling the weights
exactly recovers a model on original-unit inputs: the model with weights
`(mean_aqi*w0, w1, (mean_aqi/mean_fire)*w2)` applied to `(a, f)` equals
`mean_aqi` times the scaled model applied to `(a/mean_aqi, f/mean_fire)`. -/
theorem claim_C3_scale_unscale_roundtrip (xa xf : List ℚ) (w0 w1 w2 a f lr1 lr2 : ℚ) :
    1 ≤ mean_aqi xa ∧ 1 ≤ mean_fire xf ∧
    SimpleLinearTimeModel.predict_one
        ⟨mean_aqi xa * w0, w1, mean_aqi xa / mean_fire xf * w2, lr1⟩ a f
      = mean_aqi xa *
        SimpleLinearTimeModel.predict_one ⟨w0, w1, w2, lr2⟩
          (a / mean_aqi xa) (f / mean_fire xf) := by
  have h1 : (1:ℚ) ≤ mean_aqi xa := le_max_left _ _
  have h2 : (1:ℚ) ≤ mean_fire xf := le_max_left _ _
  have hA : mean_aqi xa ≠ 0 := (lt_of_lt_of_le zero_lt_one h1).ne'
  have hF : mean_fire xf ≠ 0 := (lt_of_lt_of_le zero_lt_one h2).ne'
  refine ⟨h1, h2, ?_⟩
  unfold SimpleLinearTimeModel.predict_one
  field_simp
  ring

/-- C6: training on an empty sample set is a no-op for every weight
state, learning rate, random stream, stream position and step count:
`sgd_train` returns without touching the weights or the stream. -/
theorem claim_C6_empty_fit_noop (rng : Nat → Nat) (k : Nat)
    (m : SimpleLinearTimeModel) (xa xf : List ℚ) (epochs : Nat) :
    sgd_train rng k m xa xf [] epochs = (m, k) := by
  simp [sgd_train]

/-- C4: on the full-model path, the three stored predictions are the
clamped autoregressive rollout: day 1 uses the seed AQI, days 2 and 3
use the previous day's already-clamped stored prediction, each day's
stored value is `max 0.0 (w0 + w1*prev + w2*future_fire)`, and a
clamped `0.0` is fed forward as the next day's input. -/
theorem claim_C4_rollout_clamp (rng : Nat → Nat) (fireRows : List FireRow)
    (aqiRows : List AqiRow) (store : List PredRow) (now : Nat)
    (lastFireDate : Nat) (last_row : MergedRow)
    (h5 : ¬ (mergedSeries aqiRows fireRows).length < 5)
    (hD : (fireRows.map fun r => r.acq_date).max? = some lastFireDate)
    (hrow : ((mergedSeries aqiRows fireRows).filter
        fun r => r.date ≤ lastFireDate).getLast? = some last_row) :
    ∃ out : HandlerOut,
      lambda_handler rng fireRows aqiRows store now = some out ∧
      ∀ w0 w1 w2 : ℚ,
        trainedWeights rng (mergedSeries aqiRows fireRows) = (w0, w1, w2) →
          out.forecast_aqi =
            [max 0 (w0 + w1 * last_row.aqi + w2 * last_row.fire_intensity),
             max 0 (w0 + w1 * max 0 (w0 + w1 * last_row.aqi
                + w2 * last_row.fire_intensity) + w2 * last_row.fire_intensity),
             max 0 (w0 + w1 * max 0 (w0 + w1 * max 0 (w0 + w1 * last_row.aqi
                + w2 * last_row.fire_intensity) + w2 * last_row.fire_intensity)
                + w2 * last_row.fire_intensity)] := by
  refine ⟨_, lambda_handler_full rng fireRows aqiRows store now lastFireDate last_row
    h5 hD hrow, ?_⟩
  intro w0 w1 w2 hw
  show rolloutLoop (trainedWeights rng (mergedSeries aqiRows fireRows)).1
      (trainedWeights rng (mergedSeries aqiRows fireRows)).2.1
      (trainedWeights rng (mergedSeries aqiRows fireRows)).2.2
      last_row.fire_intensity 3 last_row.aqi = _
  rw [hw]
  rfl

/-- Witness for C4: five merged days (AQI 10, 12, 11, 13, 9 on days
1–5) and one fire reading of brightness 100 on day 3. -/
theorem claim_C4_rollout_clamp_witness :
    ¬ (mergedSeries [AqiRow.mk 1 10, AqiRow.mk 2 12, AqiRow.mk 3 11,
        AqiRow.mk 4 13, AqiRow.mk 5 9] [FireRow.mk 3 100]).length < 5 ∧
    (([FireRow.mk 3 100] : List FireRow).map fun r => r.acq_date).max? = some 3 ∧
    ((mergedSeries [AqiRow.mk 1 10, AqiRow.mk 2 12, AqiRow.mk 3 11,
        AqiRow.mk 4 13, AqiRow.mk 5 9] [FireRow.mk 3 100]).filter
      fun r => r.date ≤ 3).getLast? = some (MergedRow.mk 3 11 100) ∧
    ∃ out : HandlerOut,
      lambda_handler (fun _ => 0) [FireRow.mk 3 100]
        [AqiRow.mk 1 10, AqiRow.mk 2 12, AqiRow.mk 3 11,
          AqiRow.mk 4 13, AqiRow.mk 5 9] [] 0 = some out ∧
      ∀ w0 w1 w2 : ℚ,
        trainedWeights (fun _ => 0) (mergedSeries [AqiRow.mk 1 10, AqiRow.mk 2 12,
            AqiRow.mk 3 11, AqiRow.mk 4 13, AqiRow.mk 5 9] [FireRow.mk 3 100])
          = (w0, w1, w2) →
          out.forecast_aqi =
            [max 0 (w0 + w1 * (MergedRow.mk 3 11 100).aqi
                + w2 * (MergedRow.mk 3 11 100).fire_intensity),
             max 0 (w0 + w1 * max 0 (w0 + w1 * (MergedRow.mk 3 11 100).aqi
                + w2 * (MergedRow.mk 3 11 100).fire_intensity)
                + w2 * (MergedRow.mk 3 11 100).fire_intensity),
             max 0 (w0 + w1 * max 0 (w0 + w1 * max 0 (w0
                + w1 * (MergedRow.mk 3 11 100).aqi
                + w2 * (MergedRow.mk 3 11 100).fire_intensity)
                + w2 * (MergedRow.mk 3 11 100).fire_intensity)
                + w2 * (MergedRow.mk 3 11 100).fire_intensity)] := by
  refine ⟨by decide, by decide, ?_, ?_⟩
  · simp [mergedSeries, aqi_daily, fire_daily, groupMeanDaily, distinctDates,
      valuesOn, meanQ, List.insertionSort, List.orderedInsert, List.lookup]
  · exact claim_C4_rollout_clamp (fun _ => 0) [FireRow.mk 3 100]
      [AqiRow.mk 1 10, AqiRow.mk 2 12, AqiRow.mk 3 11, AqiRow.mk 4 13, AqiRow.mk 5 9]
      [] 0 3 (MergedRow.mk 3 11 100) (by decide) (by decide)
      (by simp [mergedSeries, aqi_daily, fire_daily, groupMeanDaily, distinctDates,
        valuesOn, meanQ, List.insertionSort, List.orderedInsert, List.lookup])

/-- C5: on the full-model path, the rollout seed is the last merged row
whose date is on or before the most recent fire-observation date: that
row belongs to the merged series, its date is at most the last fire
date, and the stored forecast is the rollout seeded from its AQI with
the fire input held constant at its fire intensity for all 3 days. -/
theorem claim_C5_rollout_seed (rng : Nat → Nat) (fireRows : List FireRow)
    (aqiRows : List AqiRow) (store : List PredRow) (now : Nat)
    (lastFireDate : Nat) (last_row : MergedRow)
    (h5 : ¬ (mergedSeries aqiRows fireRows).length < 5)
    (hD : (fireRows.map fun r => r.acq_date).max? = some lastFireDate)
    (hrow : ((mergedSeries aqiRows fireRows).filter
        fun r => r.date ≤ lastFireDate).getLast? = some last_row) :
    ∃ out : HandlerOut,
      lambda_handler rng fireRows aqiRows store now = some out ∧
      last_row ∈ mergedSeries aqiRows fireRows ∧
      last_row.date ≤ lastFireDate ∧
      out.forecast_aqi =
        rolloutLoop (trainedWeights rng (mergedSeries aqiRows fireRows)).1
          (trainedWeights rng (mergedSeries aqiRows fireRows)).2.1
          (trainedWeights rng (mergedSeries aqiRows fireRows)).2.2
          last_row.fire_intensity 3 last_row.aqi := by
  have hmem := List.mem_filter.mp (mem_of_getLast?_eq hrow)
  exact ⟨_, lambda_handler_full rng fireRows aqiRows store now lastFireDate last_row
    h5 hD hrow, hmem.1, of_decide_eq_true hmem.2, rfl⟩

/-- Witness for C5: the same concrete five-day invocation as for C4;
the seed row is the day-3 row (the last one on or before fire day 3). -/
theorem claim_C5_rollout_seed_witness :
    ¬ (mergedSeries [AqiRow.mk 1 10, AqiRow.mk 2 12, AqiRow.mk 3 11,
        AqiRow.mk 4 13, AqiRow.mk 5 9] [FireRow.mk 3 100]).length < 5 ∧
    (([FireRow.mk 3 100] : List FireRow).map fun r => r.acq_date).max? = some 3 ∧
    ((mergedSeries [AqiRow.mk 1 10, AqiRow.mk 2 12, AqiRow.mk 3 11,
        AqiRow.mk 4 13, AqiRow.mk 5 9] [FireRow.mk 3 100]).filter
      fun r => r.date ≤ 3).getLast? = some (MergedRow.mk 3 11 100) ∧
    ∃ out : HandlerOut,
      lambda_handler (fun _ => 0) [FireRow.mk 3 100]
        [AqiRow.mk 1 10, AqiRow.mk 2 12, AqiRow.mk 3 11,
          AqiRow.mk 4 13, AqiRow.mk 5 9] [] 0 = some out ∧
      MergedRow.mk 3 11 100 ∈ mergedSeries [AqiRow.mk 1 10, AqiRow.mk 2 12,
        AqiRow.mk 3 11, AqiRow.mk 4 13, AqiRow.mk 5 9] [FireRow.mk 3 100] ∧
      (MergedRow.mk 3 11 100).date ≤ 3 ∧
      out.forecast_aqi =
        rolloutLoop (trainedWeights (fun _ => 0) (mergedSeries [AqiRow.mk 1 10,
            AqiRow.mk 2 12, AqiRow.mk 3 11, AqiRow.mk 4 13, AqiRow.mk 5 9]
            [FireRow.mk 3 100])).1
          (trainedWeights (fun _ => 0) (mergedSeries [AqiRow.mk 1 10, AqiRow.mk 2 12,
            AqiRow.mk 3 11, AqiRow.mk 4 13, AqiRow.mk 5 9] [FireRow.mk 3 100])).2.1
          (trainedWeights (fun _ => 0) (mergedSeries [AqiRow.mk 1 10, AqiRow.mk 2 12,
            AqiRow.mk 3 11, AqiRow.mk 4 13, AqiRow.mk 5 9] [FireRow.mk 3 100])).2.2
          (MergedRow.mk 3 11 100).fire_intensity 3 (MergedRow.mk 3 11 100).aqi := by
  refine ⟨by decide, by decide, ?_, ?_⟩
  · simp [mergedSeries, aqi_daily, fire_daily, groupMeanDaily, distinctDates,
      valuesOn, meanQ, List.insertionSort, List.orderedInsert, List.lookup]
  · exact claim_C5_rollout_seed (fun _ => 0) [FireRow.mk 3 100]
      [AqiRow.mk 1 10, AqiRow.mk 2 12, AqiRow.mk 3 11, AqiRow.mk 4 13, AqiRow.mk 5 9]
      [] 0 3 (MergedRow.mk 3 11 100) (by decide) (by decide)
      (by simp [mergedSeries, aqi_daily, fire_daily, groupMeanDaily, distinctDates,
        valuesOn, meanQ, List.insertionSort, List.orderedInsert, List.lookup])

/-- C7 (amended): for every store whose existing prediction dates are
duplicate-free, the insert operation appends rows only for dates not
already present, inserts a date duplicated within one batch at most
once, is idempotent (running the same batch twice changes nothing on
the second run), and leaves the store with duplicate-free dates that
are exactly the old dates plus the batch dates — i.e. one row per
distinct prediction date. -/
theorem claim_C7_insert_idempotent (store : List PredRow) (dates : List Nat)
    (fet : Nat) (aqis : List ℚ)
    (hnd : (store.map fun r => r.prediction_date).Nodup) :
    (∃ added : List PredRow,
        insert_timeseries store dates fet aqis = store ++ added ∧
        (∀ r ∈ added, (r.prediction_date ∈ store.map fun s => s.prediction_date)
          → False) ∧
        ((added.map fun r => r.prediction_date).Nodup)) ∧
    insert_timeseries (insert_timeseries store dates fet aqis) dates fet aqis
      = insert_timeseries store dates fet aqis ∧
    ((insert_timeseries store dates fet aqis).map fun r => r.prediction_date).Nodup ∧
    (∀ d : Nat,
      (d ∈ (insert_timeseries store dates fet aqis).map fun r => r.prediction_date) ↔
        (d ∈ store.map fun r => r.prediction_date) ∨
          d ∈ (dates.zip aqis).map Prod.fst) := by
  have h1 : insert_timeseries store dates fet aqis
      = store ++ newRows fet (dates.zip aqis) (store.map fun r => r.prediction_date) :=
    insertLoop_eq_append fet _ _ store
  refine ⟨⟨newRows fet (dates.zip aqis) (store.map fun r => r.prediction_date),
      h1, ?_, newRows_dates_nodup fet _ _⟩, ?_, ?_,
      mem_insert_timeseries_dates store dates fet aqis⟩
  · intro r hr hmem
    exact newRows_date_not_mem fet _ _ r hr hmem
  · have hall : ∀ p ∈ dates.zip aqis,
        p.1 ∈ (insert_timeseries store dates fet aqis).map fun r => r.prediction_date := by
      intro p hp
      exact (mem_insert_timeseries_dates store dates fet aqis p.1).mpr
        (Or.inr (List.mem_map.mpr ⟨p, hp, rfl⟩))
    show insertLoop fet (dates.zip aqis)
        ((insert_timeseries store dates fet aqis).map fun r => r.prediction_date)
        (insert_timeseries store dates fet aqis) = _
    rw [insertLoop_eq_append, newRows_nil_of_all_mem fet _ _ hall, List.append_nil]
  · rw [h1, List.map_append, List.nodup_append]
    refine ⟨hnd, newRows_dates_nodup fet _ _, ?_⟩
    intro a ha hb
    exact ((mem_newRows_dates fet _ _ a).mp hb).2 ha

/-- Witness for C7 (amended): a duplicate-free one-row store receiving
the batch with dates 1 and 2 (date 1 already present). -/
theorem claim_C7_insert_idempotent_witness :
    (([PredRow.mk 1 0 2] : List PredRow).map fun r => r.prediction_date).Nodup ∧
    ((∃ added : List PredRow,
        insert_timeseries [PredRow.mk 1 0 2] [1, 2] 0 [7, 8]
          = [PredRow.mk 1 0 2] ++ added ∧
        (∀ r ∈ added,
          (r.prediction_date ∈ ([PredRow.mk 1 0 2] : List PredRow).map
            fun s => s.prediction_date) → False) ∧
        ((added.map fun r => r.prediction_date).Nodup)) ∧
    insert_timeseries (insert_timeseries [PredRow.mk 1 0 2] [1, 2] 0 [7, 8]) [1, 2] 0 [7, 8]
      = insert_timeseries [PredRow.mk 1 0 2] [1, 2] 0 [7, 8] ∧
    ((insert_timeseries [PredRow.mk 1 0 2] [1, 2] 0 [7, 8]).map
      fun r => r.prediction_date).Nodup ∧
    (∀ d : Nat,
      (d ∈ (insert_timeseries [PredRow.mk 1 0 2] [1, 2] 0 [7, 8]).map
          fun r => r.prediction_date) ↔
        (d ∈ ([PredRow.mk 1 0 2] : List PredRow).map fun r => r.prediction_date) ∨
          d ∈ (([1, 2] : List Nat).zip ([7, 8] : List ℚ)).map Prod.fst)) := by
  refine ⟨by decide, ?_⟩
  exact claim_C7_insert_idempotent [PredRow.mk 1 0 2] [1, 2] 0 [7, 8] (by decide)

/-- Counterexample to C7 as stated (quantifying over every store
state): against a store already holding two rows for date 5, running
the batch `[(5, 3)]` twice leaves date 5 present twice, not exactly
once — the insert skips the date both times and the pre-existing
duplicate survives. -/
theorem claim_C7_counterexample :
    ((insert_timeseries (insert_timeseries
        [PredRow.mk 5 0 1, PredRow.mk 5 0 2] [5] 0 [3]) [5] 0 [3]).map
      fun r => r.prediction_date).count 5 = 2 := by decide

/-- C8 (amended): on the full-model path every stored prediction is
clamped non-negative; on the fallback path no clamp is applied — the
values equal the last daily mean fire intensity times 5.0 — so every
predicted AQI handed to the sink is non-negative provided every fire
brightness reading is non-negative. -/
theorem claim_C8_nonneg_forecast (rng : Nat → Nat) (fireRows : List FireRow)
    (aqiRows : List AqiRow) (store : List PredRow) (now : Nat) (out : HandlerOut)
    (hpos : ∀ r ∈ fireRows, 0 ≤ r.bright_ti4)
    (hout : lambda_handler rng fireRows aqiRows store now = some out) :
    ∀ x ∈ out.forecast_aqi, 0 ≤ x := by
  by_cases h5 : (mergedSeries aqiRows fireRows).length < 5
  · rw [lambda_handler_lt5 rng fireRows aqiRows store now h5] at hout
    obtain rfl := Option.some.inj hout
    intro x hx
    have hlf : 0 ≤ fallback_last_fire fireRows := by
      unfold fallback_last_fire
      cases hl : (fire_daily fireRows).getLast? with
      | none => exact le_refl 0
      | some p => exact fire_daily_nonneg fireRows hpos p (mem_of_getLast?_eq hl)
    have := mul_nonneg hlf (by norm_num : (0:ℚ) ≤ 5)
    rw [List.eq_of_mem_replicate hx]
    exact this
  · cases hmax : (fireRows.map fun r => r.acq_date).max? with
    | none =>
      have hnone : lambda_handler rng fireRows aqiRows store now = none := by
        unfold lambda_handler
        rw [if_neg h5, hmax]
      rw [hnone] at hout
      exact absurd hout (by simp)
    | some lastFireDate =>
      cases hlast : ((mergedSeries aqiRows fireRows).filter
          fun r => r.date ≤ lastFireDate).getLast? with
      | none =>
        have hnone : lambda_handler rng fireRows aqiRows store now = none := by
          unfold lambda_handler
          rw [if_neg h5, hmax]
          simp only [hlast]
        rw [hnone] at hout
        exact absurd hout (by simp)
      | some last_row =>
        rw [lambda_handler_full rng fireRows aqiRows store now lastFireDate last_row
          h5 hmax hlast] at hout
        obtain rfl := Option.some.inj hout
        intro x hx
        exact rolloutLoop_nonneg _ _ _ _ _ _ x hx

/-- Witness for C8 (amended): one non-negative fire reading (brightness
1 on day 0) and no AQI history; the fallback stores `[5, 5, 5]`. -/
theorem claim_C8_nonneg_forecast_witness :
    (∀ r ∈ ([FireRow.mk 0 1] : List FireRow), 0 ≤ r.bright_ti4) ∧
    lambda_handler (fun _ => 0) [FireRow.mk 0 1] [] [] 0 = some
      (HandlerOut.mk 200 "Fallback forecast stored (insufficient history)."
        [1, 2, 3] [5, 5, 5] 0
        [PredRow.mk 1 0 5, PredRow.mk 2 0 5, PredRow.mk 3 0 5]) ∧
    ∀ x ∈ (HandlerOut.mk 200 "Fallback forecast stored (insufficient history)."
        [1, 2, 3] [5, 5, 5] 0
        [PredRow.mk 1 0 5, PredRow.mk 2 0 5, PredRow.mk 3 0 5]).forecast_aqi,
      (0:ℚ) ≤ x := by
  have hpos : ∀ r ∈ ([FireRow.mk 0 1] : List FireRow), 0 ≤ r.bright_ti4 := by
    intro r hr
    simp only [List.mem_singleton] at hr
    rw [hr]
    exact zero_le_one
  have hout : lambda_handler (fun _ => 0) [FireRow.mk 0 1] [] [] 0 = some
      (HandlerOut.mk 200 "Fallback forecast stored (insufficient history)."
        [1, 2, 3] [5, 5, 5] 0
        [PredRow.mk 1 0 5, PredRow.mk 2 0 5, PredRow.mk 3 0 5]) := by
    simp [lambda_handler, fallback_last_fire, fallback_last_date, fire_daily,
      groupMeanDaily, distinctDates, valuesOn, meanQ, fire_event_time,
      insert_timeseries, insertLoop, mergedSeries, aqi_daily, HandlerOut.mk.injEq,
      List.replicate]
  exact ⟨hpos, hout,
    claim_C8_nonneg_forecast (fun _ => 0) [FireRow.mk 0 1] [] [] 0 _ hpos hout⟩

/-- Counterexample to C8 as stated: with a single negative brightness
reading (-1 on day 0) and no AQI history, the fallback path hands the
sink the value -5, which is negative — no clamp is applied there. -/
theorem claim_C8_counterexample :
    Option.map (fun o => o.forecast_aqi)
      (lambda_handler (fun _ => 0) [FireRow.mk 0 (-1)] [] [] 0)
      = some [-5, -5, -5] ∧
    ¬ (0:ℚ) ≤ -5 := by
  constructor
  · simp [lambda_handler, fallback_last_fire, fallback_last_date, fire_daily,
      groupMeanDaily, distinctDates, valuesOn, meanQ, fire_event_time,
      insert_timeseries, insertLoop, mergedSeries, aqi_daily, List.replicate]
  · norm_num

/-- C9 (amended): the store connection is acquired exactly once per
invocation, and the cursor and connection are closed exactly on the
normally-returning exits (the fallback early return and full-model
completion); on every raising exit — a failing history read, a failing
table creation, a failing prediction read or insert, or the crash when
no usable seed row exists — neither is closed, because the source has
no `try`/`finally`. -/
theorem claim_C9_connection_release (flags : ExecFlags) (rng : Nat → Nat)
    (fireRows : List FireRow) (aqiRows : List AqiRow)
    (store : List PredRow) (now : Nat) :
    (lambda_handler_exec flags rng fireRows aqiRows store now).connAcquired = 1 ∧
    (lambda_handler_exec flags rng fireRows aqiRows store now).connClosed
      = (lambda_handler_exec flags rng fireRows aqiRows store now).ok ∧
    (lambda_handler_exec flags rng fireRows aqiRows store now).cursorClosed
      = (lambda_handler_exec flags rng fireRows aqiRows store now).ok := by
  unfold lambda_handler_exec
  by_cases h1 : flags.fireReadFails = true
  · simp [h1]
  · by_cases h2 : flags.aqiReadFails = true
    · simp [h1, h2]
    · by_cases h5 : (mergedSeries aqiRows fireRows).length < 5
      · by_cases h3 : (flags.createFails || flags.readPredFails || flags.insertFails) = true
        · simp [h1, h2, h5, h3]
        · simp [h1, h2, h5, h3]
      · cases hr : lambda_handler rng fireRows aqiRows store now with
        | none => simp [h1, h2, h5, hr]
        | some out =>
          by_cases h3 : (flags.createFails || flags.readPredFails || flags.insertFails) = true
          · simp [h1, h2, h5, hr, h3]
          · simp [h1, h2, h5, hr, h3]

/-- Counterexample to C9 as stated: when the fire-history read raises,
the invocation terminates exceptionally with the connection and cursor
still open. -/
theorem claim_C9_counterexample :
    (lambda_handler_exec (ExecFlags.mk true false false false false)
        (fun _ => 0) [] [] [] 0).ok = false ∧
    (lambda_handler_exec (ExecFlags.mk true false false false false)
        (fun _ => 0) [] [] [] 0).connClosed = false ∧
    (lambda_handler_exec (ExecFlags.mk true false false false false)
        (fun _ => 0) [] [] [] 0).cursorClosed = false :=
  ⟨rfl, rfl, rfl⟩

/-- C10: the module random source is fixed by the constant seed 42 at
load, so two fresh-process runs of the handler on identical historical
rows, stores and clocks produce identical outcomes, and in particular
identical trained weights and identical forecast dates and values. -/
theorem claim_C10_determinism (fireRows1 fireRows2 : List FireRow)
    (aqiRows1 aqiRows2 : List AqiRow) (store1 store2 : List PredRow)
    (now1 now2 : Nat)
    (hf : fireRows1 = fireRows2) (ha : aqiRows1 = aqiRows2)
    (hs : store1 = store2) (hn : now1 = now2) :
    lambda_handler (seededStream 42) fireRows1 aqiRows1 store1 now1
      = lambda_handler (seededStream 42) fireRows2 aqiRows2 store2 now2 ∧
    trainedWeights (seededStream 42) (mergedSeries aqiRows1 fireRows1)
      = trainedWeights (seededStream 42) (mergedSeries aqiRows2 fireRows2) := by
  subst hf
  subst ha
  subst hs
  subst hn
  exact ⟨rfl, rfl⟩

/-- Witness for C10: two fresh runs on the same concrete one-reading
history agree. -/
theorem claim_C10_determinism_witness :
    ([FireRow.mk 1 2] : List FireRow) = [FireRow.mk 1 2] ∧
    ([AqiRow.mk 1 3] : List AqiRow) = [AqiRow.mk 1 3] ∧
    ([] : List PredRow) = [] ∧
    (7 : Nat) = 7 ∧
    (lambda_handler (seededStream 42) [FireRow.mk 1 2] [AqiRow.mk 1 3] [] 7
        = lambda_handler (seededStream 42) [FireRow.mk 1 2] [AqiRow.mk 1 3] [] 7 ∧
      trainedWeights (seededStream 42) (mergedSeries [AqiRow.mk 1 3] [FireRow.mk 1 2])
        = trainedWeights (seededStream 42) (mergedSeries [AqiRow.mk 1 3] [FireRow.mk 1 2])) :=
  ⟨rfl, rfl, rfl, rfl,
    claim_C10_determinism [FireRow.mk 1 2] [FireRow.mk 1 2] [AqiRow.mk 1 3]
      [AqiRow.mk 1 3] [] [] 7 7 rfl rfl rfl rfl⟩
